import Mathlib

/-!
Verification of the SoW-validator core subsystems: the PDF splitter
(`pdf_splitter_helper.py`), the backend-mode file-transfer strategy
(`gemini_orchestrator.process_file_for_gemini`), the two retry/backoff
wrappers (`retry_on_http_error.py`, `retry_on_gemini_error.py`), and the
pipeline cleanup contract (`sow_review_orchestrator.run`).

Modelling conventions:
- Byte sizes are natural numbers.  The Python code compares
  `os.path.getsize(path) / (1024 * 1024)` (a float) against the integer
  thresholds 10 / 20 / 30; since real file sizes are far below 2^53 and the
  divisor is a power of two, the float division is exact, so the comparisons
  are equivalent to integer comparisons against `10 * MB`, `20 * MB`,
  `30 * MB` with `MB = 1048576`.
- A source file is modelled by the four independent observation channels the
  code actually uses: its on-disk byte size (`os.path.getsize`), its declared
  MIME type, its raw byte content (`open(path, 'rb').read()`), and the page
  list produced by `pypdf.PdfReader` (pages are abstract tokens).
- Raised Python exceptions become `Except` values; the `print`-only side
  effects are dropped; observable effects needed by the claims (running the
  splitter, calling `files.upload`, emitting the oversize warning) are
  recorded in an explicit event list.
- `random.uniform(0, 1)` jitter becomes an arbitrary rational stream
  hypothesised to lie in `[0, 1)`; `time.sleep` durations are collected in a
  list.
-/

namespace SowValidator

/-- One mebibyte: the unit behind the Python `size / (1024 * 1024)` conversion. -/
def MB : Nat := 1048576

/-- A source file as observed by the code: size from the filesystem, declared
MIME type, raw bytes from `open(...).read()`, and the page list parsed by
`pypdf.PdfReader`.  The channels are independent in the code, so they are
independent fields here. -/
structure SrcFile where
  size_bytes : Nat
  mime : String
  raw : List Nat
  pages : List Nat
deriving DecidableEq

/-- Embedding of `PdfSplitterHelper._get_pdf_page_ranges`: given the page
count of the open reader and a fragment count, produce the list of
(start, end) page ranges, the last fragment absorbing the division
remainder. -/
def get_pdf_page_ranges (total_pages : Nat) (num_fragments : Int) : List (Nat × Nat) :=
  if num_fragments ≤ 0 ∨ total_pages = 0 then []
  else
    (List.range num_fragments.toNat).map (fun i =>
      (i * (total_pages / num_fragments.toNat),
        if i = num_fragments.toNat - 1 then total_pages
        else (i + 1) * (total_pages / num_fragments.toNat)))

/-- The fragment-count selection of `PdfSplitterHelper.split_pdf` (reached
only after the 30 MB ceiling check): 3 fragments from 20 MB up, 2 fragments
from 10 MB up, otherwise 1. -/
def num_fragments_for_size (size_bytes : Nat) : Nat :=
  if 20 * MB ≤ size_bytes then 3
  else if 10 * MB ≤ size_bytes then 2
  else 1

/-- Modelled from the spec: `pypdf.PdfWriter.write` is not in this
repository; per the spec each fragment is "serialized independently as a
standalone valid document containing only its page range, preserving
original page content and ordering".  We model the serializer as a fixed
document encoding (a header followed by the page tokens).  The essential,
faithful property is that the output is a function of the parsed pages
alone — the writer never sees the original raw byte stream. -/
def serialize_pdf (ps : List Nat) : List Nat :=
  37 :: 80 :: 68 :: 70 :: ps

/-- Embedding of `PdfSplitterHelper.split_pdf`: reject files over 30 MB,
pick the fragment count from the size, compute page ranges, and serialize
each range (the in-loop `page_num < len(reader.pages)` guard appears as the
`take`/`drop` truncation).  Each output pairs the fragment bytes with the
generated fragment filename. -/
def split_pdf (f : SrcFile) : Except String (List (List Nat × String)) :=
  if 30 * MB < f.size_bytes then Except.error "SizeExceeded"
  else
    Except.ok
      ((get_pdf_page_ranges f.pages.length
          ((num_fragments_for_size f.size_bytes : Nat) : Int)).enum.map (fun p =>
        (serialize_pdf ((f.pages.take p.2.2).drop p.2.1),
          "fragment_" ++ toString (p.1 + 1) ++ "_of_" ++
            toString (num_fragments_for_size f.size_bytes) ++ ".pdf")))

/-- The two backend modes of `GeminiOrchestrator`: Developer API mode
(`files.upload` strategy) and Vertex AI / managed-platform mode (inline-data
strategy). -/
inductive BackendMode where
  | developer
  | managedPlatform
deriving DecidableEq

/-- Observable side effects of `process_file_for_gemini` that the claims
talk about: a whole-file `files.upload` call (with the bytes uploaded),
running the PDF splitter (which opens the file with `PdfReader`), and the
oversize warning printed in Developer mode. -/
inductive Event where
  | upload (content : List Nat)
  | splitRun
  | warnLarge
deriving DecidableEq

/-- The unit handed to the model API: an uploaded-file reference handle, or
an inline byte blob tagged with a MIME type. -/
inductive TransferUnit where
  | reference (handle : Nat)
  | inlineBytes (data : List Nat) (mime : String)
deriving DecidableEq

/-- Embedding of `GeminiOrchestrator.process_file_for_gemini`.  In managed
(Vertex AI) mode a PDF is size-checked and split into inline parts tagged
`application/pdf`, any other type is read whole and inlined; in Developer
mode the whole file is uploaded once (after at most a warning) and the
returned reference handle — supplied here by the `upload_handle` parameter,
since the remote chooses it — becomes the single transfer unit.  The first
component records the observable events in order. -/
def process_file_for_gemini (mode : BackendMode) (upload_handle : Nat) (f : SrcFile) :
    List Event × Except String (List TransferUnit) :=
  match mode with
  | BackendMode.managedPlatform =>
    if f.mime = "application/pdf" then
      if 30 * MB < f.size_bytes then ([], Except.error "SizeExceeded")
      else
        ([Event.splitRun],
          match split_pdf f with
          | Except.ok frags =>
              Except.ok (frags.map (fun fr => TransferUnit.inlineBytes fr.1 "application/pdf"))
          | Except.error msg => Except.error msg)
    else
      ([], Except.ok [TransferUnit.inlineBytes f.raw f.mime])
  | BackendMode.developer =>
    ((if f.mime = "application/pdf" ∧ 30 * MB < f.size_bytes then [Event.warnLarge] else [])
        ++ [Event.upload f.raw],
      Except.ok [TransferUnit.reference upload_handle])

/-! Helper lemmas about the page-range computation. -/

/-- In the non-degenerate case the range list is the mapped `List.range`. -/
lemma get_pdf_page_ranges_eq (total : Nat) (nf : Int) (hnf : 0 < nf) (ht : 0 < total) :
    get_pdf_page_ranges total nf =
      (List.range nf.toNat).map (fun i =>
        (i * (total / nf.toNat),
          if i = nf.toNat - 1 then total else (i + 1) * (total / nf.toNat))) := by
  unfold get_pdf_page_ranges
  rw [if_neg (by omega : ¬(nf ≤ 0 ∨ total = 0))]

/-- The fragment count times the per-fragment page quota never exceeds the
page total. -/
lemma mul_div_le_total (total n : Nat) : n * (total / n) ≤ total := by
  calc n * (total / n) = total / n * n := Nat.mul_comm _ _
    _ ≤ total := Nat.div_mul_le_self _ _

/-- Every fragment's end page is at most the page total. -/
lemma frag_end_le_total (total n i : Nat) (hi : i < n) :
    (if i = n - 1 then total else (i + 1) * (total / n)) ≤ total := by
  by_cases h : i = n - 1
  · simp [h]
  · rw [if_neg h]
    calc (i + 1) * (total / n) ≤ n * (total / n) := Nat.mul_le_mul_right _ (by omega)
      _ ≤ total := mul_div_le_total total n

/-- A number is below `(p / q + 1) * q` whenever `q` is positive. -/
lemma lt_div_succ_mul (p q : Nat) (hq : 0 < q) : p < (p / q + 1) * q := by
  have h1 : q * (p / q) + p % q = p := Nat.div_add_mod p q
  have h2 : p % q < q := Nat.mod_lt _ hq
  calc p = q * (p / q) + p % q := h1.symm
    _ < q * (p / q) + q := by omega
    _ = (p / q + 1) * q := by ring

/-- C1: for every document with `num_fragments > 0` and `total_pages > 0`
the computed page ranges are pairwise disjoint and in ascending order
(each range ends no later than any later range starts, and each range is
well-formed), their union is exactly `[0, total_pages)`, and fragment `i`
is `[i*q, (i+1)*q)` for `q = total_pages / num_fragments` except the last
fragment whose end is `total_pages`; `total_pages = 50, num_fragments = 3`
yields `[0,16), [16,32), [32,50)`; and `num_fragments ≤ 0` or
`total_pages = 0` yields the empty sequence. -/
theorem c1_page_ranges_partition (total : Nat) (nf : Int)
    (hnf : 0 < nf) (ht : 0 < total) :
    ((get_pdf_page_ranges total nf).Pairwise (fun a b => a.2 ≤ b.1)) ∧
    (∀ r ∈ get_pdf_page_ranges total nf, r.1 ≤ r.2) ∧
    (∀ p : Nat, p < total ↔
      ∃ r ∈ get_pdf_page_ranges total nf, r.1 ≤ p ∧ p < r.2) ∧
    (∀ i : Nat, i < nf.toNat →
      (get_pdf_page_ranges total nf)[i]? =
        some (i * (total / nf.toNat),
          if i = nf.toNat - 1 then total else (i + 1) * (total / nf.toNat))) ∧
    get_pdf_page_ranges 50 3 = [(0, 16), (16, 32), (32, 50)] ∧
    (∀ (t : Nat) (m : Int), m ≤ 0 ∨ t = 0 → get_pdf_page_ranges t m = []) := by
  have hn : 0 < nf.toNat := by omega
  have hre := get_pdf_page_ranges_eq total nf hnf ht
  refine ⟨?_, ?_, ?_, ?_, ?_, ?_⟩
  · -- pairwise: end of fragment i ≤ start of fragment j for i < j
    rw [hre, List.pairwise_iff_getElem]
    intro i j hi hj hij
    simp only [List.length_map, List.length_range] at hi hj
    simp only [List.getElem_map, List.getElem_range]
    have hine : i ≠ nf.toNat - 1 := by omega
    rw [if_neg hine]
    exact Nat.mul_le_mul_right _ (by omega)
  · -- each range is well-formed: start ≤ end
    intro r hr
    rw [hre] at hr
    obtain ⟨i, hi, hri⟩ := List.mem_map.mp hr
    rw [List.mem_range] at hi
    subst hri
    by_cases h : i = nf.toNat - 1
    · simp only [h, if_pos rfl]
      calc (nf.toNat - 1) * (total / nf.toNat)
          ≤ nf.toNat * (total / nf.toNat) := Nat.mul_le_mul_right _ (by omega)
        _ ≤ total := mul_div_le_total total nf.toNat
    · rw [if_neg h]
      exact Nat.mul_le_mul_right _ (by omega)
  · -- the union of the ranges is exactly [0, total)
    intro p
    constructor
    · intro hp
      by_cases hq0 : total / nf.toNat = 0
      · -- all quota-sized ranges are empty; p lands in the last range
        refine ⟨((nf.toNat - 1) * (total / nf.toNat), total), ?_, ?_, hp⟩
        · rw [hre]
          exact List.mem_map.mpr ⟨nf.toNat - 1, List.mem_range.mpr (by omega), by simp⟩
        · simp [hq0]
      · by_cases hbig : nf.toNat - 1 ≤ p / (total / nf.toNat)
        · -- p lies in the last fragment
          refine ⟨((nf.toNat - 1) * (total / nf.toNat), total), ?_, ?_, hp⟩
          · rw [hre]
            exact List.mem_map.mpr ⟨nf.toNat - 1, List.mem_range.mpr (by omega), by simp⟩
          · calc (nf.toNat - 1) * (total / nf.toNat)
                ≤ p / (total / nf.toNat) * (total / nf.toNat) :=
                  Nat.mul_le_mul_right _ hbig
              _ ≤ p := Nat.div_mul_le_self _ _
        · -- p lies in fragment p / q, which is not the last one
          push_neg at hbig
          refine ⟨(p / (total / nf.toNat) * (total / nf.toNat),
              (p / (total / nf.toNat) + 1) * (total / nf.toNat)), ?_, ?_, ?_⟩
          · rw [hre]
            refine List.mem_map.mpr ⟨p / (total / nf.toNat),
              List.mem_range.mpr (Nat.lt_of_lt_of_le hbig (Nat.sub_le _ _)), ?_⟩
            rw [if_neg (Nat.ne_of_lt hbig)]
          · exact Nat.div_mul_le_self _ _
          · exact lt_div_succ_mul p _ (Nat.pos_of_ne_zero hq0)
    · intro ⟨r, hr, h1, h2⟩
      rw [hre] at hr
      obtain ⟨i, hi, hri⟩ := List.mem_map.mp hr
      rw [List.mem_range] at hi
      subst hri
      exact Nat.lt_of_lt_of_le h2 (frag_end_le_total total nf.toNat i hi)
  · -- the explicit per-fragment formula
    intro i hi
    rw [hre]
    simp [List.getElem?_map, List.getElem?_range, hi]
  · -- the concrete 50-page, 3-fragment example
    decide
  · -- the degenerate cases return the empty sequence
    intro t m h
    unfold get_pdf_page_ranges
    rw [if_pos h]

/-- Witness for C1 at `total_pages = 50`, `num_fragments = 3`. -/
theorem c1_page_ranges_partition_witness :
    ((get_pdf_page_ranges 50 3).Pairwise (fun a b => a.2 ≤ b.1)) ∧
    (∀ r ∈ get_pdf_page_ranges 50 3, r.1 ≤ r.2) ∧
    (∀ p : Nat, p < 50 ↔ ∃ r ∈ get_pdf_page_ranges 50 3, r.1 ≤ p ∧ p < r.2) ∧
    (∀ i : Nat, i < (3 : Int).toNat →
      (get_pdf_page_ranges 50 3)[i]? =
        some (i * (50 / (3 : Int).toNat),
          if i = (3 : Int).toNat - 1 then 50 else (i + 1) * (50 / (3 : Int).toNat))) ∧
    get_pdf_page_ranges 50 3 = [(0, 16), (16, 32), (32, 50)] ∧
    (∀ (t : Nat) (m : Int), m ≤ 0 ∨ t = 0 → get_pdf_page_ranges t m = []) :=
  c1_page_ranges_partition 50 3 (by decide) (by decide)

/-- C8 counterexample: a one-page document split into 3 fragments (the
count selected for any size in [20, 30] MB, e.g. 25 MB) yields the ranges
`[(0,0), (0,0), (0,1)]`, whose first fragment is empty although the
document has a page. -/
theorem c8_counterexample :
    get_pdf_page_ranges 1 3 = [(0, 0), (0, 0), (0, 1)] ∧
    (0, 0) ∈ get_pdf_page_ranges 1 3 ∧ ¬((0 : Nat) < (0 : Nat)) ∧
    num_fragments_for_size (25 * MB) = 3 := by
  refine ⟨by decide, by decide, by decide, ?_⟩
  unfold num_fragments_for_size
  rw [if_pos (by norm_num [MB])]

/-- C8 amended: every fragment produced by the splitter has a non-empty
page range provided the document has at least `num_fragments` pages; when
`0 < total_pages < num_fragments` the non-final quota-sized fragments are
empty. -/
theorem c8_fragments_nonempty (total : Nat) (nf : Int) (hnf : 0 < nf)
    (hle : nf.toNat ≤ total) :
    ∀ r ∈ get_pdf_page_ranges total nf, r.1 < r.2 := by
  have hn : 0 < nf.toNat := by omega
  have ht : 0 < total := by omega
  have hq : 1 ≤ total / nf.toNat := (Nat.one_le_div_iff hn).mpr hle
  intro r hr
  rw [get_pdf_page_ranges_eq total nf hnf ht] at hr
  obtain ⟨i, hi, hri⟩ := List.mem_map.mp hr
  rw [List.mem_range] at hi
  subst hri
  by_cases h : i = nf.toNat - 1
  · simp only [h, if_pos rfl]
    have hnn : (nf.toNat - 1) + 1 = nf.toNat := Nat.succ_pred_eq_of_pos hn
    have hsum : (nf.toNat - 1) * (total / nf.toNat) + total / nf.toNat ≤ total := by
      have := mul_div_le_total total nf.toNat
      calc (nf.toNat - 1) * (total / nf.toNat) + total / nf.toNat
          = ((nf.toNat - 1) + 1) * (total / nf.toNat) := by ring
        _ = nf.toNat * (total / nf.toNat) := by rw [hnn]
        _ ≤ total := this
    exact Nat.lt_of_lt_of_le (Nat.lt_add_of_pos_right hq) hsum
  · rw [if_neg h]
    exact mul_lt_mul_of_pos_right (Nat.lt_succ_self i) hq

/-- Witness for the amended C8 at `total_pages = 50`, `num_fragments = 3`. -/
theorem c8_fragments_nonempty_witness :
    (0 : Int) < 3 ∧ (3 : Int).toNat ≤ 50 ∧
    ∀ r ∈ get_pdf_page_ranges 50 3, r.1 < r.2 :=
  ⟨by decide, by decide, c8_fragments_nonempty 50 3 (by decide) (by decide)⟩

/-- C2 counterexample: a 15 MB PDF with zero pages is split into zero
fragments, not the 2 fragments the size table demands for [10, 20) MB, so
the returned fragment count is not a pure function of the byte size. -/
theorem c2_counterexample :
    split_pdf ⟨15 * MB, "application/pdf", [], []⟩ = Except.ok [] ∧
    10 * MB ≤ 15 * MB ∧ 15 * MB < 20 * MB ∧
    ([] : List (List Nat × String)).length ≠ 2 := by
  refine ⟨rfl, by norm_num [MB], by norm_num [MB], by decide⟩

/-- C2 amended: a file over 30 MB fails with `SizeExceeded` (independently
of its pages, hence before any split work); otherwise the returned
fragment count equals the size-selected count — 1 below 10 MB, 2 in
[10, 20) MB, 3 in [20, 30] MB — whenever the document has at least one
page, and is 0 for a zero-page document. -/
theorem c2_fragment_count (f : SrcFile) :
    (30 * MB < f.size_bytes → split_pdf f = Except.error "SizeExceeded") ∧
    (f.size_bytes ≤ 30 * MB → 0 < f.pages.length →
      ∃ l, split_pdf f = Except.ok l ∧ l.length = num_fragments_for_size f.size_bytes) ∧
    (f.size_bytes ≤ 30 * MB → f.pages.length = 0 → split_pdf f = Except.ok []) ∧
    (f.size_bytes < 10 * MB → num_fragments_for_size f.size_bytes = 1) ∧
    (10 * MB ≤ f.size_bytes → f.size_bytes < 20 * MB →
      num_fragments_for_size f.size_bytes = 2) ∧
    (20 * MB ≤ f.size_bytes → num_fragments_for_size f.size_bytes = 3) := by
  have hpos : 0 < num_fragments_for_size f.size_bytes := by
    unfold num_fragments_for_size
    split <;> [skip; split] <;> omega
  refine ⟨?_, ?_, ?_, ?_, ?_, ?_⟩
  · intro h30
    unfold split_pdf
    rw [if_pos h30]
  · intro h30 hp
    unfold split_pdf
    rw [if_neg (by omega)]
    refine ⟨_, rfl, ?_⟩
    rw [List.length_map, List.enum_length,
      get_pdf_page_ranges_eq _ _ (by omega) hp, List.length_map, List.length_range,
      Int.toNat_natCast]
  · intro h30 hp
    unfold split_pdf
    rw [if_neg (by omega)]
    have : get_pdf_page_ranges f.pages.length ((num_fragments_for_size f.size_bytes : Nat) : Int)
        = [] := by
      unfold get_pdf_page_ranges
      rw [if_pos (Or.inr hp)]
    rw [this]
    rfl
  · intro h
    unfold num_fragments_for_size
    rw [if_neg (by omega), if_neg (by omega)]
  · intro h1 h2
    unfold num_fragments_for_size
    rw [if_neg (by omega), if_pos h1]
  · intro h
    unfold num_fragments_for_size
    rw [if_pos h]

/-- Witness for the amended C2 at a concrete 22 MB five-page file. -/
theorem c2_fragment_count_witness :
    (30 * MB < 22 * MB →
      split_pdf ⟨22 * MB, "application/pdf", [0], [0, 1, 2, 3, 4]⟩ =
        Except.error "SizeExceeded") ∧
    (22 * MB ≤ 30 * MB → 0 < ([0, 1, 2, 3, 4] : List Nat).length →
      ∃ l, split_pdf ⟨22 * MB, "application/pdf", [0], [0, 1, 2, 3, 4]⟩ = Except.ok l ∧
        l.length = num_fragments_for_size (22 * MB)) ∧
    (22 * MB ≤ 30 * MB → ([0, 1, 2, 3, 4] : List Nat).length = 0 →
      split_pdf ⟨22 * MB, "application/pdf", [0], [0, 1, 2, 3, 4]⟩ = Except.ok []) ∧
    (22 * MB < 10 * MB → num_fragments_for_size (22 * MB) = 1) ∧
    (10 * MB ≤ 22 * MB → 22 * MB < 20 * MB → num_fragments_for_size (22 * MB) = 2) ∧
    (20 * MB ≤ 22 * MB → num_fragments_for_size (22 * MB) = 3) :=
  c2_fragment_count ⟨22 * MB, "application/pdf", [0], [0, 1, 2, 3, 4]⟩

/-- C5: in Developer mode, for every file and every size, preparation
performs exactly one upload — of the whole, un-split raw content — and
returns exactly one reference-handle TransferUnit; the splitter never
runs; and an oversized PDF triggers the warning but still proceeds. -/
theorem c5_developer_single_upload (f : SrcFile) (h : Nat) :
    ((process_file_for_gemini BackendMode.developer h f).1.filter
        (fun e => match e with | Event.upload _ => true | _ => false))
      = [Event.upload f.raw] ∧
    Event.splitRun ∉ (process_file_for_gemini BackendMode.developer h f).1 ∧
    (process_file_for_gemini BackendMode.developer h f).2 =
      Except.ok [TransferUnit.reference h] ∧
    (f.mime = "application/pdf" → 30 * MB < f.size_bytes →
      Event.warnLarge ∈ (process_file_for_gemini BackendMode.developer h f).1) := by
  unfold process_file_for_gemini
  by_cases hc : f.mime = "application/pdf" ∧ 30 * MB < f.size_bytes
  · rw [if_pos hc]
    exact ⟨rfl, by simp, rfl, fun _ _ => by simp⟩
  · rw [if_neg hc]
    exact ⟨rfl, by simp, rfl, fun h1 h2 => absurd ⟨h1, h2⟩ hc⟩

/-- Witness for C5 at a concrete oversized 31 MB PDF. -/
theorem c5_developer_single_upload_witness :
    ((process_file_for_gemini BackendMode.developer 7
        ⟨31 * MB, "application/pdf", [1, 2], [3]⟩).1.filter
        (fun e => match e with | Event.upload _ => true | _ => false))
      = [Event.upload [1, 2]] ∧
    Event.splitRun ∉ (process_file_for_gemini BackendMode.developer 7
        ⟨31 * MB, "application/pdf", [1, 2], [3]⟩).1 ∧
    (process_file_for_gemini BackendMode.developer 7
        ⟨31 * MB, "application/pdf", [1, 2], [3]⟩).2 =
      Except.ok [TransferUnit.reference 7] ∧
    ("application/pdf" = "application/pdf" → 30 * MB < 31 * MB →
      Event.warnLarge ∈ (process_file_for_gemini BackendMode.developer 7
          ⟨31 * MB, "application/pdf", [1, 2], [3]⟩).1) :=
  c5_developer_single_upload ⟨31 * MB, "application/pdf", [1, 2], [3]⟩ 7

/-- C6 counterexample: a 15 MB zero-page PDF in managed-platform mode
yields zero inline TransferUnits, not the claimed 2. -/
theorem c6_counterexample :
    process_file_for_gemini BackendMode.managedPlatform 0
        ⟨15 * MB, "application/pdf", [], []⟩
      = ([Event.splitRun], Except.ok []) ∧
    10 * MB ≤ 15 * MB ∧ 15 * MB < 20 * MB := by
  refine ⟨rfl, by norm_num [MB], by norm_num [MB]⟩

/-- The 2-fragment page ranges of a document with at least one page. -/
lemma get_pdf_page_ranges_two (L : Nat) (hp : 0 < L) :
    get_pdf_page_ranges L ((2 : Nat) : Int) = [(0, L / 2), (L / 2, L)] := by
  rw [get_pdf_page_ranges_eq _ _ (by norm_num) hp]
  rw [show ((2 : Nat) : Int).toNat = 2 from rfl, show List.range 2 = [0, 1] from rfl]
  norm_num

/-- The single-fragment page range of a document with at least one page. -/
lemma get_pdf_page_ranges_one (L : Nat) (hp : 0 < L) :
    get_pdf_page_ranges L ((1 : Nat) : Int) = [(0, L)] := by
  rw [get_pdf_page_ranges_eq _ _ (by norm_num) hp]
  rw [show ((1 : Nat) : Int).toNat = 1 from rfl, show List.range 1 = [0] from rfl]
  norm_num

/-- C6 amended: in managed-platform mode a PDF of size in [10, 20) MB with
at least one page produces exactly 2 inline TransferUnits — the serialized
front half and back half of the pages — each tagged `application/pdf` (a
zero-page PDF produces the empty sequence); and any PDF over 30 MB fails
with `SizeExceeded` with no transfer or split event. -/
theorem c6_managed_two_inline_units (f : SrcFile) (h : Nat)
    (hm : f.mime = "application/pdf")
    (h10 : 10 * MB ≤ f.size_bytes) (h20 : f.size_bytes < 20 * MB)
    (hp : 0 < f.pages.length) :
    process_file_for_gemini BackendMode.managedPlatform h f =
      ([Event.splitRun], Except.ok
        [TransferUnit.inlineBytes
            (serialize_pdf (f.pages.take (f.pages.length / 2))) "application/pdf",
         TransferUnit.inlineBytes
            (serialize_pdf (f.pages.drop (f.pages.length / 2))) "application/pdf"]) ∧
    (∀ g : SrcFile, g.mime = "application/pdf" → 30 * MB < g.size_bytes →
      process_file_for_gemini BackendMode.managedPlatform h g =
        ([], Except.error "SizeExceeded")) := by
  have hM : 0 < MB := by norm_num [MB]
  constructor
  · have hn2 : num_fragments_for_size f.size_bytes = 2 := by
      unfold num_fragments_for_size
      rw [if_neg (by omega), if_pos h10]
    unfold process_file_for_gemini
    rw [if_pos hm, if_neg (by omega)]
    unfold split_pdf
    rw [if_neg (by omega), hn2, get_pdf_page_ranges_two f.pages.length hp]
    simp [List.enum, List.enumFrom, List.take_length, Nat.div_le_self]
  · intro g hg h30
    unfold process_file_for_gemini
    rw [if_pos hg, if_pos h30]

/-- Witness for the amended C6 at a concrete 15 MB four-page PDF. -/
theorem c6_managed_two_inline_units_witness :
    process_file_for_gemini BackendMode.managedPlatform 3
        ⟨15 * MB, "application/pdf", [8, 9], [1, 2, 3, 4]⟩ =
      ([Event.splitRun], Except.ok
        [TransferUnit.inlineBytes
            (serialize_pdf (([1, 2, 3, 4] : List Nat).take (([1, 2, 3, 4] : List Nat).length / 2)))
            "application/pdf",
         TransferUnit.inlineBytes
            (serialize_pdf (([1, 2, 3, 4] : List Nat).drop (([1, 2, 3, 4] : List Nat).length / 2)))
            "application/pdf"]) ∧
    (∀ g : SrcFile, g.mime = "application/pdf" → 30 * MB < g.size_bytes →
      process_file_for_gemini BackendMode.managedPlatform 3 g =
        ([], Except.error "SizeExceeded")) :=
  c6_managed_two_inline_units ⟨15 * MB, "application/pdf", [8, 9], [1, 2, 3, 4]⟩ 3
    rfl (by norm_num [MB]) (by norm_num [MB]) (by decide)

/-- C9 counterexample: in managed-platform mode, (a) a small zero-page PDF
yields zero inline TransferUnits, not exactly one; (b) a small one-page PDF
yields one inline TransferUnit whose bytes are the splitter's
re-serialization of the parsed pages, not the raw bytes read from the
source file. -/
theorem c9_counterexample :
    (process_file_for_gemini BackendMode.managedPlatform 0
        ⟨5 * MB, "application/pdf", [1, 2, 3], []⟩ =
      ([Event.splitRun], Except.ok []) ∧
      5 * MB < 10 * MB) ∧
    (process_file_for_gemini BackendMode.managedPlatform 0
        ⟨5 * MB, "application/pdf", [9], [4]⟩ =
      ([Event.splitRun],
        Except.ok [TransferUnit.inlineBytes (serialize_pdf [4]) "application/pdf"]) ∧
      serialize_pdf [4] ≠ [9]) := by
  refine ⟨⟨rfl, by norm_num [MB]⟩, rfl, by decide⟩

/-- C9 amended: in managed-platform mode, a file of a non-splittable media
type produces exactly one inline TransferUnit holding the entire original
raw content; a splittable (PDF) file below 10 MB with at least one page
produces exactly one inline TransferUnit holding the splitter's
serialization of the full page range (not the raw source bytes); and a
zero-page PDF produces the empty sequence. -/
theorem c9_managed_single_inline (f : SrcFile) (h : Nat) :
    (f.mime ≠ "application/pdf" →
      process_file_for_gemini BackendMode.managedPlatform h f =
        ([], Except.ok [TransferUnit.inlineBytes f.raw f.mime])) ∧
    (f.mime = "application/pdf" → f.size_bytes < 10 * MB → 0 < f.pages.length →
      process_file_for_gemini BackendMode.managedPlatform h f =
        ([Event.splitRun],
          Except.ok [TransferUnit.inlineBytes (serialize_pdf f.pages) "application/pdf"])) ∧
    (f.mime = "application/pdf" → f.size_bytes < 10 * MB → f.pages.length = 0 →
      process_file_for_gemini BackendMode.managedPlatform h f =
        ([Event.splitRun], Except.ok [])) := by
  have hM : 0 < MB := by norm_num [MB]
  refine ⟨?_, ?_, ?_⟩
  · intro hm
    unfold process_file_for_gemini
    rw [if_neg hm]
  · intro hm h10 hp
    have hn1 : num_fragments_for_size f.size_bytes = 1 := by
      unfold num_fragments_for_size
      rw [if_neg (by omega), if_neg (by omega)]
    unfold process_file_for_gemini
    rw [if_pos hm, if_neg (by omega)]
    unfold split_pdf
    rw [if_neg (by omega), hn1, get_pdf_page_ranges_one f.pages.length hp]
    simp [List.enum, List.enumFrom, List.take_length]
  · intro hm h10 hp
    have hranges : get_pdf_page_ranges f.pages.length
        ((num_fragments_for_size f.size_bytes : Nat) : Int) = [] := by
      unfold get_pdf_page_ranges
      rw [if_pos (Or.inr hp)]
    unfold process_file_for_gemini
    rw [if_pos hm, if_neg (by omega)]
    unfold split_pdf
    rw [if_neg (by omega), hranges]
    rfl

/-- Witness for the amended C9 at a concrete small CSV file. -/
theorem c9_managed_single_inline_witness :
    ("text/csv" ≠ "application/pdf" →
      process_file_for_gemini BackendMode.managedPlatform 5
          ⟨2 * MB, "text/csv", [10, 11], [6]⟩ =
        ([], Except.ok [TransferUnit.inlineBytes [10, 11] "text/csv"])) ∧
    ("text/csv" = "application/pdf" → 2 * MB < 10 * MB → 0 < ([6] : List Nat).length →
      process_file_for_gemini BackendMode.managedPlatform 5
          ⟨2 * MB, "text/csv", [10, 11], [6]⟩ =
        ([Event.splitRun],
          Except.ok [TransferUnit.inlineBytes (serialize_pdf [6]) "application/pdf"])) ∧
    ("text/csv" = "application/pdf" → 2 * MB < 10 * MB → ([6] : List Nat).length = 0 →
      process_file_for_gemini BackendMode.managedPlatform 5
          ⟨2 * MB, "text/csv", [10, 11], [6]⟩ =
        ([Event.splitRun], Except.ok [])) :=
  c9_managed_single_inline ⟨2 * MB, "text/csv", [10, 11], [6]⟩ 5

/-!
The retry/backoff layer.  An external operation is modelled as a stream of
outcomes `op : Nat → Outcome`, where `op k` is what the k-th invocation
(0-indexed) does; the `random.uniform(0, 1)` draws become a stream
`jitter : Nat → ℚ` with `jitter k` the draw added to the k-th sleep
(1-indexed by the `retries` counter, as in the code).  A wrapper run is
summarised by a trace: how many times the wrapped operation was invoked,
the list of sleep durations in order, and the final outcome.
-/

/-- Outcome of one invocation under `retry_on_http_error`: a value, or a
raised `HttpError` carrying `e.resp.status`. -/
inductive HttpOutcome where
  | ok (v : Nat)
  | err (status : Nat)

/-- Trace of a `retry_on_http_error` run.  `result = none` models the
Python wrapper falling off the end of its `while` loop and returning
`None`; `some (Except.error s)` models a re-raised `HttpError`. -/
structure HttpTrace where
  calls : Nat
  sleeps : List ℚ
  result : Option (Except Nat Nat)

/-- The loop body of `retry_on_http_error`'s wrapper, recursing on the
remaining loop iterations `rem = max_retries - retries` (the `while
retries < max_retries` guard).  Each iteration invokes the operation; a
5xx failure bumps `retries`, re-raises at the ceiling or sleeps
`backoff_factor * 2^(retries-1) + jitter` and loops; any other failure
re-raises at once. -/
def retry_http_go (max_retries : Int) (backoff_factor : ℚ) (jitter : Nat → ℚ)
    (op : Nat → HttpOutcome) : Nat → Nat → HttpTrace
  | _, 0 => ⟨0, [], none⟩
  | retries, rem + 1 =>
    match op retries with
    | HttpOutcome.ok v => ⟨1, [], some (Except.ok v)⟩
    | HttpOutcome.err s =>
      if 500 ≤ s then
        if max_retries ≤ ((retries + 1 : Nat) : Int) then ⟨1, [], some (Except.error s)⟩
        else
          let t := retry_http_go max_retries backoff_factor jitter op (retries + 1) rem
          ⟨t.calls + 1, (backoff_factor * 2 ^ retries + jitter (retries + 1)) :: t.sleeps,
            t.result⟩
      else ⟨1, [], some (Except.error s)⟩

/-- Embedding of the decorator `retry_on_http_error`: run the loop from
`retries = 0` with `max_retries` iterations available. -/
def retry_on_http_error (max_retries : Int) (backoff_factor : ℚ) (jitter : Nat → ℚ)
    (op : Nat → HttpOutcome) : HttpTrace :=
  retry_http_go max_retries backoff_factor jitter op 0 max_retries.toNat

/-- The error classes of `google.api_core.exceptions` distinguished by
`retry_on_gemini_error`; the first five form `TRANSIENT_GEMINI_ERRORS`. -/
inductive GeminiError where
  | resourceExhausted
  | internalServerError
  | serviceUnavailable
  | deadlineExceeded
  | aborted
  | notFound
  | permissionDenied
deriving DecidableEq

/-- Membership in the `TRANSIENT_GEMINI_ERRORS` tuple. -/
def transient_gemini : GeminiError → Bool := fun e =>
  match e with
  | GeminiError.resourceExhausted => true
  | GeminiError.internalServerError => true
  | GeminiError.serviceUnavailable => true
  | GeminiError.deadlineExceeded => true
  | GeminiError.aborted => true
  | GeminiError.notFound => false
  | GeminiError.permissionDenied => false

/-- Outcome of one invocation under `retry_on_gemini_error`. -/
inductive GeminiOutcome where
  | ok (v : Nat)
  | err (e : GeminiError)

/-- Trace of a `retry_on_gemini_error` run; no `Option` layer, because the
`while True` loop can only exit by returning or raising. -/
structure GeminiTrace where
  calls : Nat
  sleeps : List ℚ
  result : Except GeminiError Nat

/-- The loop body of `retry_on_gemini_error`'s wrapper.  The fuel argument
only bounds the recursion; the wrapper below supplies enough fuel that the
fuel-0 base case is unreachable (the loop raises once `retries` reaches
`max_retries`, after at most `max max_retries 1` invocations). -/
def retry_gemini_go (max_retries : Int) (backoff_factor : ℚ) (jitter : Nat → ℚ)
    (op : Nat → GeminiOutcome) : Nat → Nat → GeminiTrace
  | _, 0 => ⟨0, [], Except.error GeminiError.aborted⟩
  | retries, rem + 1 =>
    match op retries with
    | GeminiOutcome.ok v => ⟨1, [], Except.ok v⟩
    | GeminiOutcome.err e =>
      if transient_gemini e then
        if max_retries ≤ ((retries + 1 : Nat) : Int) then ⟨1, [], Except.error e⟩
        else
          let t := retry_gemini_go max_retries backoff_factor jitter op (retries + 1) rem
          ⟨t.calls + 1, (backoff_factor * 2 ^ retries + jitter (retries + 1)) :: t.sleeps,
            t.result⟩
      else ⟨1, [], Except.error e⟩

/-- Embedding of the decorator `retry_on_gemini_error`: run the loop from
`retries = 0`; unlike the HTTP wrapper, the `while True` loop always makes
at least one invocation, hence the fuel floor of 1. -/
def retry_on_gemini_error (max_retries : Int) (backoff_factor : ℚ) (jitter : Nat → ℚ)
    (op : Nat → GeminiOutcome) : GeminiTrace :=
  retry_gemini_go max_retries backoff_factor jitter op 0 (max max_retries.toNat 1)

/-- C3: an operation that fails with a transient error on its first 4
invocations and succeeds on the 5th, run under either wrapper with the
default `max_retries = 5`, returns the 5th invocation's result after
exactly 4 sleeps, the k-th sleep being `backoff_factor * 2^(k-1)` plus the
k-th jitter draw; the jitter-free minimum durations are strictly
increasing, and each sleep lies within `[minimum, minimum + 1)` when the
jitter lies in `[0, 1)`. -/
theorem c3_retry_success_after_four (backoff_factor : ℚ) (jitter : Nat → ℚ)
    (s : Nat) (e : GeminiError) (v w : Nat)
    (hb : 0 < backoff_factor) (hj : ∀ k, 0 ≤ jitter k ∧ jitter k < 1)
    (hs : 500 ≤ s) (he : transient_gemini e = true) :
    retry_on_http_error 5 backoff_factor jitter
        (fun k => if k < 4 then HttpOutcome.err s else HttpOutcome.ok v) =
      ⟨5,
        [backoff_factor * 2 ^ 0 + jitter 1, backoff_factor * 2 ^ 1 + jitter 2,
         backoff_factor * 2 ^ 2 + jitter 3, backoff_factor * 2 ^ 3 + jitter 4],
        some (Except.ok v)⟩ ∧
    retry_on_gemini_error 5 backoff_factor jitter
        (fun k => if k < 4 then GeminiOutcome.err e else GeminiOutcome.ok w) =
      ⟨5,
        [backoff_factor * 2 ^ 0 + jitter 1, backoff_factor * 2 ^ 1 + jitter 2,
         backoff_factor * 2 ^ 2 + jitter 3, backoff_factor * 2 ^ 3 + jitter 4],
        Except.ok w⟩ ∧
    (backoff_factor * 2 ^ 0 < backoff_factor * 2 ^ 1 ∧
      backoff_factor * 2 ^ 1 < backoff_factor * 2 ^ 2 ∧
      backoff_factor * 2 ^ 2 < backoff_factor * 2 ^ 3) ∧
    (∀ k : Nat,
      backoff_factor * 2 ^ k ≤ backoff_factor * 2 ^ k + jitter (k + 1) ∧
      backoff_factor * 2 ^ k + jitter (k + 1) < backoff_factor * 2 ^ k + 1) := by
  refine ⟨?_, ?_, ?_, ?_⟩
  · simp only [retry_on_http_error]
    norm_num [retry_http_go, hs]
  · simp only [retry_on_gemini_error]
    norm_num [retry_gemini_go, he]
  · exact ⟨mul_lt_mul_of_pos_left (by norm_num) hb,
      mul_lt_mul_of_pos_left (by norm_num) hb,
      mul_lt_mul_of_pos_left (by norm_num) hb⟩
  · intro k
    exact ⟨le_add_of_nonneg_right (hj (k + 1)).1, add_lt_add_left (hj (k + 1)).2 _⟩

/-- Witness for C3 at concrete backoff, jitter, error and values. -/
theorem c3_retry_success_after_four_witness :
    retry_on_http_error 5 1 (fun _ => 1 / 2)
        (fun k => if k < 4 then HttpOutcome.err 503 else HttpOutcome.ok 42) =
      ⟨5,
        [1 * 2 ^ 0 + 1 / 2, 1 * 2 ^ 1 + 1 / 2, 1 * 2 ^ 2 + 1 / 2, 1 * 2 ^ 3 + 1 / 2],
        some (Except.ok 42)⟩ ∧
    retry_on_gemini_error 5 1 (fun _ => 1 / 2)
        (fun k => if k < 4 then GeminiOutcome.err GeminiError.serviceUnavailable
                  else GeminiOutcome.ok 43) =
      ⟨5,
        [1 * 2 ^ 0 + 1 / 2, 1 * 2 ^ 1 + 1 / 2, 1 * 2 ^ 2 + 1 / 2, 1 * 2 ^ 3 + 1 / 2],
        Except.ok 43⟩ ∧
    ((1 : ℚ) * 2 ^ 0 < 1 * 2 ^ 1 ∧ (1 : ℚ) * 2 ^ 1 < 1 * 2 ^ 2 ∧
      (1 : ℚ) * 2 ^ 2 < 1 * 2 ^ 3) ∧
    (∀ k : Nat,
      (1 : ℚ) * 2 ^ k ≤ 1 * 2 ^ k + (fun (_ : Nat) => (1 : ℚ) / 2) (k + 1) ∧
      (1 : ℚ) * 2 ^ k + (fun (_ : Nat) => (1 : ℚ) / 2) (k + 1) < 1 * 2 ^ k + 1) :=
  c3_retry_success_after_four 1 (fun _ => 1 / 2) 503 GeminiError.serviceUnavailable 42 43
    (by norm_num) (fun k => by norm_num) (by norm_num) rfl

/-- Always-failing transient operation: the HTTP loop is invoked once per
remaining iteration, sleeps on all but the last, and re-raises the error. -/
lemma retry_http_go_allfail (max_retries : Int) (b : ℚ) (j : Nat → ℚ) (s : Nat)
    (hs : 500 ≤ s) :
    ∀ (rem retries : Nat), 1 ≤ rem → max_retries = (retries : Int) + (rem : Int) →
      (retry_http_go max_retries b j (fun _ => HttpOutcome.err s) retries rem).calls = rem ∧
      (retry_http_go max_retries b j (fun _ => HttpOutcome.err s) retries rem).result
        = some (Except.error s) ∧
      (retry_http_go max_retries b j (fun _ => HttpOutcome.err s) retries rem).sleeps.length
        = rem - 1 := by
  intro rem
  induction rem with
  | zero => intro retries h1 h2; exact absurd h1 (by omega)
  | succ r ih =>
    intro retries h1 h2
    by_cases hc : max_retries ≤ ((retries + 1 : Nat) : Int)
    · have hr0 : r = 0 := by omega
      subst hr0
      have hc' : max_retries ≤ (retries : Int) + 1 := by exact_mod_cast hc
      simp [retry_http_go, hs, hc']
    · have hr1 : 1 ≤ r := by omega
      obtain ⟨ih1, ih2, ih3⟩ := ih (retries + 1) hr1 (by push_cast at h2 ⊢; omega)
      simp only [retry_http_go, if_pos hs, if_neg hc]
      refine ⟨by simpa using ih1, by simpa using ih2, ?_⟩
      simp only [List.length_cons]
      rw [ih3]
      omega

/-- Always-failing transient operation under the Gemini loop. -/
lemma retry_gemini_go_allfail (max_retries : Int) (b : ℚ) (j : Nat → ℚ) (e : GeminiError)
    (he : transient_gemini e = true) :
    ∀ (rem retries : Nat), 1 ≤ rem → max_retries = (retries : Int) + (rem : Int) →
      (retry_gemini_go max_retries b j (fun _ => GeminiOutcome.err e) retries rem).calls = rem ∧
      (retry_gemini_go max_retries b j (fun _ => GeminiOutcome.err e) retries rem).result
        = Except.error e ∧
      (retry_gemini_go max_retries b j (fun _ => GeminiOutcome.err e) retries rem).sleeps.length
        = rem - 1 := by
  intro rem
  induction rem with
  | zero => intro retries h1 h2; exact absurd h1 (by omega)
  | succ r ih =>
    intro retries h1 h2
    by_cases hc : max_retries ≤ ((retries + 1 : Nat) : Int)
    · have hr0 : r = 0 := by omega
      subst hr0
      have hc' : max_retries ≤ (retries : Int) + 1 := by exact_mod_cast hc
      simp [retry_gemini_go, he, hc']
    · have hr1 : 1 ≤ r := by omega
      obtain ⟨ih1, ih2, ih3⟩ := ih (retries + 1) hr1 (by push_cast at h2 ⊢; omega)
      simp only [retry_gemini_go, he, if_pos, if_neg hc, if_true]
      refine ⟨by simpa using ih1, by simpa using ih2, ?_⟩
      simp only [List.length_cons]
      rw [ih3]
      omega

/-- C4: with any `max_retries ≥ 1`, an operation that always fails with a
transient error (5xx status for the HTTP wrapper, a `TRANSIENT_GEMINI_ERRORS`
class for the Gemini wrapper) is invoked exactly `max_retries` times and the
final error is re-raised unmodified; a non-transient error (4xx status /
unlisted class) is raised on the first invocation with zero sleeps. -/
theorem c4_retry_exhaustion_and_nontransient (max_retries : Int) (hmr : 1 ≤ max_retries)
    (b : ℚ) (j : Nat → ℚ)
    (s : Nat) (hs : 500 ≤ s) (e : GeminiError) (he : transient_gemini e = true)
    (s4 : Nat) (hs4 : s4 < 500) (e4 : GeminiError) (he4 : transient_gemini e4 = false) :
    ((retry_on_http_error max_retries b j (fun _ => HttpOutcome.err s)).calls
        = max_retries.toNat ∧
      (retry_on_http_error max_retries b j (fun _ => HttpOutcome.err s)).result
        = some (Except.error s) ∧
      (retry_on_http_error max_retries b j (fun _ => HttpOutcome.err s)).sleeps.length
        = max_retries.toNat - 1) ∧
    ((retry_on_gemini_error max_retries b j (fun _ => GeminiOutcome.err e)).calls
        = max_retries.toNat ∧
      (retry_on_gemini_error max_retries b j (fun _ => GeminiOutcome.err e)).result
        = Except.error e ∧
      (retry_on_gemini_error max_retries b j (fun _ => GeminiOutcome.err e)).sleeps.length
        = max_retries.toNat - 1) ∧
    retry_on_http_error max_retries b j (fun _ => HttpOutcome.err s4)
      = ⟨1, [], some (Except.error s4)⟩ ∧
    retry_on_gemini_error max_retries b j (fun _ => GeminiOutcome.err e4)
      = ⟨1, [], Except.error e4⟩ := by
  obtain ⟨k, hk⟩ : ∃ k, max_retries.toNat = k + 1 := ⟨max_retries.toNat - 1, by omega⟩
  refine ⟨?_, ?_, ?_, ?_⟩
  · exact retry_http_go_allfail max_retries b j s hs max_retries.toNat 0
      (by omega) (by omega)
  · unfold retry_on_gemini_error
    rw [Nat.max_eq_left (by omega : 1 ≤ max_retries.toNat)]
    exact retry_gemini_go_allfail max_retries b j e he max_retries.toNat 0
      (by omega) (by omega)
  · unfold retry_on_http_error
    rw [hk]
    simp [retry_http_go, show ¬(500 ≤ s4) from by omega]
  · unfold retry_on_gemini_error
    rw [Nat.max_eq_left (by omega : 1 ≤ max_retries.toNat), hk]
    simp [retry_gemini_go, he4]

/-- Witness for C4 at `max_retries = 5`, status 502 / class `aborted`
transient, status 404 / class `notFound` non-transient. -/
theorem c4_retry_exhaustion_and_nontransient_witness :
    ((retry_on_http_error 5 1 (fun _ => 0) (fun _ => HttpOutcome.err 502)).calls
        = (5 : Int).toNat ∧
      (retry_on_http_error 5 1 (fun _ => 0) (fun _ => HttpOutcome.err 502)).result
        = some (Except.error 502) ∧
      (retry_on_http_error 5 1 (fun _ => 0) (fun _ => HttpOutcome.err 502)).sleeps.length
        = (5 : Int).toNat - 1) ∧
    ((retry_on_gemini_error 5 1 (fun _ => 0)
          (fun _ => GeminiOutcome.err GeminiError.aborted)).calls = (5 : Int).toNat ∧
      (retry_on_gemini_error 5 1 (fun _ => 0)
          (fun _ => GeminiOutcome.err GeminiError.aborted)).result
        = Except.error GeminiError.aborted ∧
      (retry_on_gemini_error 5 1 (fun _ => 0)
          (fun _ => GeminiOutcome.err GeminiError.aborted)).sleeps.length
        = (5 : Int).toNat - 1) ∧
    retry_on_http_error 5 1 (fun _ => 0) (fun _ => HttpOutcome.err 404)
      = ⟨1, [], some (Except.error 404)⟩ ∧
    retry_on_gemini_error 5 1 (fun _ => 0)
        (fun _ => GeminiOutcome.err GeminiError.notFound)
      = ⟨1, [], Except.error GeminiError.notFound⟩ :=
  c4_retry_exhaustion_and_nontransient 5 (by norm_num) 1 (fun _ => 0)
    502 (by norm_num) GeminiError.aborted rfl 404 (by norm_num) GeminiError.notFound rfl

/-- C10: at the degenerate configuration `max_retries ≤ 0` the two
wrappers diverge — the HTTP wrapper's `while` guard is false at once, so
it returns `None` with zero invocations, while the Gemini wrapper's
`while True` loop always invokes the operation once and then returns its
success value, or re-raises its error immediately (the retry ceiling is
already reached). -/
theorem c10_degenerate_max_retries (max_retries : Int) (hmr : max_retries ≤ 0)
    (b : ℚ) (j : Nat → ℚ) (oph : Nat → HttpOutcome) (opg : Nat → GeminiOutcome) :
    retry_on_http_error max_retries b j oph = ⟨0, [], none⟩ ∧
    (retry_on_gemini_error max_retries b j opg).calls = 1 ∧
    (retry_on_gemini_error max_retries b j opg).sleeps = [] ∧
    (retry_on_gemini_error max_retries b j opg).result =
      (match opg 0 with
       | GeminiOutcome.ok v => Except.ok v
       | GeminiOutcome.err e => Except.error e) := by
  have ht : max_retries.toNat = 0 := by omega
  have hfuel : max max_retries.toNat 1 = 1 := by omega
  constructor
  · unfold retry_on_http_error
    rw [ht]
    rfl
  · unfold retry_on_gemini_error
    rw [hfuel]
    rcases hop : opg 0 with v | e
    · simp [retry_gemini_go, hop]
    · by_cases htr : transient_gemini e
      · simp [retry_gemini_go, hop, htr, show max_retries ≤ (1 : Int) from by omega]
      · simp [retry_gemini_go, hop, htr]

/-- Witness for C10 at `max_retries = 0` with a succeeding HTTP operation
and a transiently failing Gemini operation. -/
theorem c10_degenerate_max_retries_witness :
    retry_on_http_error 0 1 (fun _ => 0) (fun _ => HttpOutcome.ok 9) = ⟨0, [], none⟩ ∧
    (retry_on_gemini_error 0 1 (fun _ => 0)
        (fun _ => GeminiOutcome.err GeminiError.internalServerError)).calls = 1 ∧
    (retry_on_gemini_error 0 1 (fun _ => 0)
        (fun _ => GeminiOutcome.err GeminiError.internalServerError)).sleeps = [] ∧
    (retry_on_gemini_error 0 1 (fun _ => 0)
        (fun _ => GeminiOutcome.err GeminiError.internalServerError)).result =
      (match (fun (_ : Nat) => GeminiOutcome.err GeminiError.internalServerError) 0 with
       | GeminiOutcome.ok v => Except.ok v
       | GeminiOutcome.err e => Except.error e) :=
  c10_degenerate_max_retries 0 (by norm_num) 1 (fun _ => 0)
    (fun _ => HttpOutcome.ok 9) (fun _ => GeminiOutcome.err GeminiError.internalServerError)

/-!
The pipeline cleanup contract of `SowReviewOrchestrator.run`.  The three
phases (`_prepare_gemini_session`, `_analyze_sow`, `_generate_report`) run
inside a `try` whose `except` swallows any exception and whose `finally`
runs `_cleanup` over the ledger `self.uploaded_gemini_files`; the ledger is
populated by extending it with the handles returned by
`_KnowledgeBaseLoader.load()` (so a failure inside `load` leaves it empty).
Each phase's external behaviour is an input to the model; deletion of one
handle happens inside `delete_gemini_developer_api_file`, whose internal
`try/except` catches any deletion error.
-/

/-- One pipeline run's external behaviour: what `kb_loader.load()` does
(returning the reference handles to track, or raising), whether the rest
of session preparation raises, what analysis and report generation do, and
which handles the remote `files.delete` raises on. -/
structure RunEnv where
  loadResult : Except String (List Nat)
  sessionResult : Except String Unit
  analyzeResult : Except String String
  reportResult : Except String String
  deleteRaises : Nat → Bool

/-- The ledger `self.uploaded_gemini_files` as populated before cleanup:
the handles from a successful `load`, or nothing if `load` raised before
the `extend`. -/
def run_ledger (env : RunEnv) : List Nat :=
  match env.loadResult with
  | Except.ok kb => kb
  | Except.error _ => []

/-- Embedding of `delete_gemini_developer_api_file` for one handle: the
deletion is attempted, and a raising remote delete is caught internally,
so the call returns normally either way.  The result records the attempted
handle and whether the caught error occurred. -/
def delete_gemini_developer_api_file (deleteRaises : Nat → Bool) (h : Nat) : Nat × Bool :=
  (h, deleteRaises h)

/-- Embedding of `_cleanup`: delete every ledger entry in order.  Because
each deletion returns normally, the loop always covers the whole ledger. -/
def cleanup (deleteRaises : Nat → Bool) (ledger : List Nat) : List (Nat × Bool) :=
  ledger.map (delete_gemini_developer_api_file deleteRaises)

/-- The `try` block of `run`: phases in sequence, stopping at the first
raise; produces `some url` only when all phases succeed. -/
def run_phases (env : RunEnv) : Option String :=
  match env.loadResult with
  | Except.error _ => none
  | Except.ok _ =>
    match env.sessionResult with
    | Except.error _ => none
    | Except.ok _ =>
      match env.analyzeResult with
      | Except.error _ => none
      | Except.ok _ =>
        match env.reportResult with
        | Except.error _ => none
        | Except.ok u => some u

/-- Embedding of `SowReviewOrchestrator.run`: the phases run first (their
exception, if any, is caught), then — as in the `finally` — cleanup runs
over the accumulated ledger; the run returns the attempted deletions and
the final URL (or `None` on failure). -/
def run (env : RunEnv) : List (Nat × Bool) × Option String :=
  (cleanup env.deleteRaises (run_ledger env), run_phases env)

/-- C7: cleanup covers the whole accumulated ledger in order no matter
which phase raised, a raising deletion does not prevent the remaining
deletions from being attempted (every handle appears in the attempt log
with its own outcome), and the run's overall result is unchanged under any
change of the deletion outcomes. -/
theorem c7_cleanup_guaranteed (env : RunEnv) :
    ((run env).1.map Prod.fst = run_ledger env) ∧
    (∀ h ∈ run_ledger env, (h, env.deleteRaises h) ∈ (run env).1) ∧
    (∀ d : Nat → Bool,
      (run { env with deleteRaises := d }).2 = (run env).2) ∧
    ((run env).2 = run_phases env) := by
  refine ⟨?_, ?_, ?_, rfl⟩
  · simp [run, cleanup, delete_gemini_developer_api_file, Function.comp_def]
  · intro h hh
    simp only [run, cleanup]
    exact List.mem_map.mpr ⟨h, hh, rfl⟩
  · intro d
    rfl

/-- Witness for C7: a ledger of three handles where deleting the second
raises and the analysis phase fails — all three deletions are attempted and
the run still reports failure (`none`), unaffected by the deletion error. -/
theorem c7_cleanup_guaranteed_witness :
    ((run ⟨Except.ok [11, 22, 33], Except.ok (), Except.error "boom",
        Except.ok "url", fun h => h = 22⟩).1.map Prod.fst =
      run_ledger ⟨Except.ok [11, 22, 33], Except.ok (), Except.error "boom",
        Except.ok "url", fun h => h = 22⟩) ∧
    (∀ h ∈ run_ledger ⟨Except.ok [11, 22, 33], Except.ok (), Except.error "boom",
        Except.ok "url", fun h => h = 22⟩,
      (h, (fun h => h = 22 : Nat → Bool) h) ∈
        (run ⟨Except.ok [11, 22, 33], Except.ok (), Except.error "boom",
          Except.ok "url", fun h => h = 22⟩).1) ∧
    (∀ d : Nat → Bool,
      (run { (⟨Except.ok [11, 22, 33], Except.ok (), Except.error "boom",
          Except.ok "url", fun h => h = 22⟩ : RunEnv) with deleteRaises := d }).2 =
        (run ⟨Except.ok [11, 22, 33], Except.ok (), Except.error "boom",
          Except.ok "url", fun h => h = 22⟩).2) ∧
    ((run ⟨Except.ok [11, 22, 33], Except.ok (), Except.error "boom",
        Except.ok "url", fun h => h = 22⟩).2 =
      run_phases ⟨Except.ok [11, 22, 33], Except.ok (), Except.error "boom",
        Except.ok "url", fun h => h = 22⟩) :=
  c7_cleanup_guaranteed ⟨Except.ok [11, 22, 33], Except.ok (), Except.error "boom",
    Except.ok "url", fun h => h = 22⟩

end SowValidator
